import Mathlib

/-!
Verification development for the tcb::pointer library (tcbrindle/pointer).

The repository ships only the tests, examples and module wrappers under
src/; the core header tcb/pointer.hpp is not part of the sources given.
The definitions below are therefore modelled from the specification
(spec.md), with the behaviour pinned down by the conformance tests in
src/test/pointer.test.cpp.  Addresses are modelled as natural numbers
(0 is the null value); type-identity tags as natural numbers; the signed
difference type (std::ptrdiff_t) as mathematical integers constrained to
the 64-bit two's-complement range.
-/

namespace Tcb

/-- Modelled from the spec: the error taxonomy of section 7 (the missing
tcb/pointer.hpp raises every runtime violation through a single
ptr_runtime_error channel; the kinds below distinguish the conditions). -/
inductive Err where
  | nullPointer
  | typeMismatch
  | boundsError
  | outOfRange
  | badAccess
deriving DecidableEq, Repr

/-- The 64-bit address space size: addresses are machine words. -/
def word64 : Nat := 2 ^ 64

/-- Largest value of the signed difference type (PTRDIFF_MAX). -/
def ptrdiffMax : Int := 2 ^ 63 - 1

/-- Smallest value of the signed difference type (PTRDIFF_MIN). -/
def ptrdiffMin : Int := -(2 ^ 63)

/-- Modelled from the spec: tcb::pointer⟨T⟩ for a concrete object type T
(the missing tcb/pointer.hpp).  A single address value; the invariant
that the address is never null is enforced at the fallible construction
entry points below. -/
structure Pointer where
  addr : Nat
deriving DecidableEq, Repr

/-- Modelled from the spec: pointer⟨T⟩::from_address — accepts a raw
address of exactly the element type and fails with a NullPointer error
when the address is the null value. -/
def fromAddress (a : Nat) : Except Err Pointer :=
  if a = 0 then Except.error Err.nullPointer else Except.ok (Pointer.mk a)

/-- Modelled from the spec: pointer⟨T⟩::to_address — recovers the raw
address underlying the pointer. -/
def Pointer.toAddress (p : Pointer) : Nat := p.addr

/-- Modelled from the spec: dereferencing a pointer reads the referenced
value from memory (memory modelled as a map from addresses to values). -/
def Pointer.deref (mem : Nat → Int) (p : Pointer) : Int := mem p.addr

/-- Modelled from the spec: tcb::pointer⟨void⟩ / pointer⟨void const⟩, the
type-erased pointer (the missing tcb/pointer.hpp).  It carries the
address, the type-identity tag recorded at erasure time (the identity of
the const-stripped concrete type), and the static const-qualification of
the erased pointer type itself. -/
structure ErasedPointer where
  addr : Nat
  tag : Nat
  isConst : Bool
deriving DecidableEq, Repr

/-- Modelled from the spec: the implicit, total concrete-to-any erasure.
The tag of the concrete type and the const-qualification of the erased
target type are recorded alongside the address. -/
def erase (tag : Nat) (isConst : Bool) (p : Pointer) : ErasedPointer :=
  ErasedPointer.mk p.addr tag isConst

/-- Modelled from the spec: the checked any-to-concrete recovery.  The
requested type-identity tag is compared at runtime against the tag
recorded at erasure time; a mismatch raises TypeMismatch.  (The
const-qualification of the requested type is a compile-time matter,
modelled separately by constConvertible.) -/
def recover (e : ErasedPointer) (tag : Nat) : Except Err Pointer :=
  if e.tag = tag then Except.ok (Pointer.mk e.addr) else Except.error Err.typeMismatch

/-- Modelled from the spec: the compile-time const-qualification rule of
the conversion and recovery family — const may be added but never
removed (a conversion from a source with const flag src to a target with
const flag dst exists iff src implies dst). -/
def constConvertible (src dst : Bool) : Bool := (!src) || dst

/-- Modelled from the spec: the checked iterator of section 4.2 (the
missing tcb/pointer.hpp): a base address, a current index and the valid
length, with the invariant 0 ≤ index ≤ length. -/
structure CheckedIterator where
  base : Nat
  index : Nat
  length : Nat
deriving DecidableEq, Repr

/-- Modelled from the spec: iterator increment — requires index < length,
otherwise raises BoundsError and, the operation being rejected outright,
the iterator is left unchanged (the model is pure, so a rejected step
returns only the error). -/
def CheckedIterator.inc (it : CheckedIterator) : Except Err CheckedIterator :=
  if it.index < it.length then
    Except.ok (CheckedIterator.mk it.base (it.index + 1) it.length)
  else Except.error Err.boundsError

/-- Modelled from the spec: iterator decrement — requires index > 0,
otherwise raises BoundsError. -/
def CheckedIterator.dec (it : CheckedIterator) : Except Err CheckedIterator :=
  if 0 < it.index then
    Except.ok (CheckedIterator.mk it.base (it.index - 1) it.length)
  else Except.error Err.boundsError

/-- Modelled from the spec: random-access offset by k — requires that the
addition index + k does not overflow the signed difference type and that
0 ≤ index + k ≤ length; an out-of-range result and an arithmetic
overflow both raise BoundsError. -/
def CheckedIterator.offset (it : CheckedIterator) (k : Int) : Except Err CheckedIterator :=
  let s : Int := (it.index : Int) + k
  if s < ptrdiffMin then Except.error Err.boundsError
  else if ptrdiffMax < s then Except.error Err.boundsError
  else if 0 ≤ s ∧ s ≤ (it.length : Int) then
    Except.ok (CheckedIterator.mk it.base s.toNat it.length)
  else Except.error Err.boundsError

/-- Modelled from the spec: tcb::pointer⟨T[]⟩, the array pointer (the
missing tcb/pointer.hpp): a fat pointer pairing a base address with a
runtime element count.  Addresses are counted in element strides. -/
structure ArrayPointer where
  addr : Nat
  count : Nat
deriving DecidableEq, Repr

/-- Modelled from the spec: the tcb::slice⟨T⟩ view an array pointer
dereferences to — a bounds-checked range over count elements starting at
a base address; the i-th element lives at address base + i. -/
structure Slice where
  base : Nat
  count : Nat
deriving DecidableEq, Repr

/-- Modelled from the spec: slice indexing (operator[]) — returns the
address of the i-th element for 0 ≤ i < count and raises BoundsError
otherwise. -/
def Slice.subscript (v : Slice) (i : Int) : Except Err Nat :=
  if 0 ≤ i ∧ i < (v.count : Int) then Except.ok (v.base + i.toNat)
  else Except.error Err.boundsError

/-- Modelled from the spec: the checked get (slice::at) — returns the
address of the i-th element for i < count and raises the distinct
OutOfRange error for the same out-of-bounds condition. -/
def Slice.at_ (v : Slice) (i : Nat) : Except Err Nat :=
  if i < v.count then Except.ok (v.base + i)
  else Except.error Err.outOfRange

/-- Modelled from the spec: element-wise slice equality — two views are
equal when they have the same element count and all corresponding
elements compare equal under the element equality beq. -/
def sliceEqBy (beq : α → α → Bool) : List α → List α → Bool
  | [], [] => true
  | x :: xs, y :: ys => beq x y && sliceEqBy beq xs ys
  | _, _ => false

/-- Modelled from the spec: lexicographic slice ordering — each pair of
corresponding elements is compared in turn with the element comparison
cmp (whose result Option.none models an unordered partial-ordering
result, as for floats with NaN); the first non-equal result decides, and
when a common prefix is exhausted the shorter view is less. -/
def sliceCompareBy (cmp : α → α → Option Ordering) : List α → List α → Option Ordering
  | [], [] => some Ordering.eq
  | [], _ :: _ => some Ordering.lt
  | _ :: _, [] => some Ordering.gt
  | x :: xs, y :: ys =>
    match cmp x y with
    | some Ordering.eq => sliceCompareBy cmp xs ys
    | r => r

/-- Modelled from the spec: object-pointer equality (operator==) — two
pointers compare equal iff their addresses are equal. -/
def Pointer.equal (p q : Pointer) : Bool := p.addr == q.addr

/-- Modelled from the spec: object-pointer ordering (operator<, the
spaceship) — a strict total order over addresses, independent of the
pointed-to value. -/
def Pointer.lt (p q : Pointer) : Bool := p.addr < q.addr

/-- Modelled from the spec: type-erased-pointer equality — address
equality alone; the type-identity tags are not part of the comparison
key. -/
def ErasedPointer.equal (e f : ErasedPointer) : Bool := e.addr == f.addr

/-- Modelled from the spec: type-erased-pointer ordering by address. -/
def ErasedPointer.lt (e f : ErasedPointer) : Bool := e.addr < f.addr

/-- Modelled from the spec and pinned by the conformance test
(src/test/pointer.test.cpp lines 1100-1140): array-pointer equality
compares both the base address and the element count — an array pointer
over the first three elements of a five-element array is unequal to the
pointer over all five, although the base addresses coincide. -/
def ArrayPointer.equal (p q : ArrayPointer) : Bool :=
  p.addr == q.addr && p.count == q.count

/-- Modelled from the spec and pinned by the conformance test: the
array-pointer strict total order is by base address first, then element
count (the shorter pointer over the same base is less). -/
def ArrayPointer.lt (p q : ArrayPointer) : Bool :=
  decide (p.addr < q.addr ∨ (p.addr = q.addr ∧ p.count < q.count))

/-- Modelled from the spec: the standard hash of a raw address value
(std::hash over the underlying word, modelled as the word itself). -/
def stdHashAddr (a : Nat) : Nat := a

/-- Modelled from the spec: the std::hash specialisation for object
pointers — the hash of the pointer equals the hash of its underlying raw
address. -/
def Pointer.hashVal (p : Pointer) : Nat := stdHashAddr p.addr

/-- Modelled from the spec: the std::hash specialisation for array
pointers — the hash combines the hash of the base address with the
element count (modelled by an injective pairing), so that pointers
sharing a base but differing in length hash differently. -/
def ArrayPointer.hashVal (p : ArrayPointer) : Nat :=
  Nat.pair (stdHashAddr p.addr) p.count

/-- Modelled from the spec: the Nullable (std::optional) specialisation
for pointer types — the absent state is represented by the pointer's own
reserved null (zero) address pattern, with no separate discriminant. -/
structure NullablePointer where
  addr : Nat
deriving DecidableEq, Repr

/-- Modelled from the spec: the default (empty) construction of the
Nullable wrapper — the absent state. -/
def NullablePointer.default : NullablePointer := NullablePointer.mk 0

/-- Modelled from the spec: has_value() — the wrapper holds a value iff
its word is not the reserved null pattern. -/
def NullablePointer.hasValue (o : NullablePointer) : Bool := o.addr != 0

/-- Modelled from the spec: checked dereference of the wrapper — raises
BadAccess when the wrapper is absent, otherwise yields the stored
pointer. -/
def NullablePointer.value (o : NullablePointer) : Except Err Pointer :=
  if o.addr = 0 then Except.error Err.badAccess else Except.ok (Pointer.mk o.addr)

/-- Modelled from the spec: the at-most-one-element iteration variant —
iterating an absent wrapper yields zero elements, a present wrapper
yields exactly its pointer. -/
def NullablePointer.toList (o : NullablePointer) : List Pointer :=
  if o.addr = 0 then [] else [Pointer.mk o.addr]

/-- Modelled from the spec: assignment of a (valid, non-null) pointer
into the wrapper. -/
def NullablePointer.assign (_o : NullablePointer) (p : Pointer) : NullablePointer :=
  NullablePointer.mk p.addr

/-- Modelled from the spec: the representation of the abstract optional
pointer in a single machine word — the absent state maps to the reserved
null pattern 0 and a present pointer maps to its own address word. -/
def nullableRepr : Option Pointer → Nat
  | none => 0
  | some p => p.addr

/-- A valid pointer state: a non-null address within the machine word. -/
def pointerValid (p : Pointer) : Prop := p.addr ≠ 0 ∧ p.addr < word64

/-- A valid optional-pointer state: absent, or a valid pointer. -/
def nullableValid : Option Pointer → Prop
  | none => True
  | some p => pointerValid p

instance : DecidablePred pointerValid := fun p => by
  unfold pointerValid; infer_instance

instance (o : Option Pointer) : Decidable (nullableValid o) := by
  cases o with
  | none => exact isTrue trivial
  | some p => unfold nullableValid; infer_instance

end Tcb

namespace Tcb

/-- Claim C1: a pointer p erased to the type-erased pointer and recovered
with p's own original type (the type-identity tag recorded at erasure)
succeeds and yields a pointer equal to p, with the same address; recovery
with any other type-identity tag raises a TypeMismatch error.  The check
is performed at runtime against the tag recorded at erasure time. -/
theorem erase_recover_roundtrip (p : Pointer) (t u : Nat) (c : Bool) :
    recover (erase t c p) t = Except.ok p ∧
    (recover (erase t c p) t).map Pointer.toAddress = Except.ok p.addr ∧
    (u ≠ t → recover (erase t c p) u = Except.error Err.typeMismatch) := by
  refine ⟨?_, ?_, ?_⟩
  · simp [recover, erase]
  · simp [recover, erase, Except.map, Pointer.toAddress]
  · intro hu
    have ht : ¬ t = u := fun h => hu h.symm
    simp [recover, erase, ht]

/-- Witness for C1 at a concrete input: the pointer at address 42 erased
with tag 3 recovers with tag 3 and fails with tag 7. -/
theorem erase_recover_roundtrip_witness :
    recover (erase 3 false (Pointer.mk 42)) 3 = Except.ok (Pointer.mk 42) ∧
    recover (erase 3 false (Pointer.mk 42)) 7 = Except.error Err.typeMismatch :=
  ⟨(erase_recover_roundtrip (Pointer.mk 42) 3 7 false).1,
   (erase_recover_roundtrip (Pointer.mk 42) 3 7 false).2.2 (by decide)⟩

/-- Claim C5: for every non-null raw address a, from_address(a) succeeds
and to_address on the result returns exactly a; from_address applied to
the null address raises a NullPointer error. -/
theorem fromAddress_spec (a : Nat) :
    (a ≠ 0 → fromAddress a = Except.ok (Pointer.mk a) ∧
      (Pointer.mk a).toAddress = a) ∧
    fromAddress 0 = Except.error Err.nullPointer := by
  refine ⟨fun ha => ⟨?_, rfl⟩, ?_⟩
  · simp [fromAddress, ha]
  · simp [fromAddress]

/-- Witness for C5 at the concrete non-null address 42. -/
theorem fromAddress_spec_witness :
    fromAddress 42 = Except.ok (Pointer.mk 42) ∧
    (Pointer.mk 42).toAddress = 42 :=
  (fromAddress_spec 42).1 (by decide)

/-- Claim C2: for a checked iterator with base index i and bound n, the
random-access offset by k succeeds (yielding the iterator at index i + k
over the same base and bound) if and only if 0 ≤ i + k ≤ n and the
addition i + k does not overflow the signed difference type; otherwise it
raises BoundsError — the model being pure, the rejected operation
returns only the error and the input iterator is untouched.  Increment
requires i < n and decrement requires i > 0, each raising BoundsError
when the precondition fails. -/
theorem checkedIterator_bounds (it : CheckedIterator) (k : Int) :
    (it.offset k
        = Except.ok (CheckedIterator.mk it.base ((it.index : Int) + k).toNat it.length) ↔
      (0 ≤ (it.index : Int) + k ∧ (it.index : Int) + k ≤ (it.length : Int) ∧
        ptrdiffMin ≤ (it.index : Int) + k ∧ (it.index : Int) + k ≤ ptrdiffMax)) ∧
    (¬ (0 ≤ (it.index : Int) + k ∧ (it.index : Int) + k ≤ (it.length : Int) ∧
        ptrdiffMin ≤ (it.index : Int) + k ∧ (it.index : Int) + k ≤ ptrdiffMax) →
      it.offset k = Except.error Err.boundsError) ∧
    (it.index < it.length →
      it.inc = Except.ok (CheckedIterator.mk it.base (it.index + 1) it.length)) ∧
    (¬ it.index < it.length → it.inc = Except.error Err.boundsError) ∧
    (0 < it.index →
      it.dec = Except.ok (CheckedIterator.mk it.base (it.index - 1) it.length)) ∧
    (¬ 0 < it.index → it.dec = Except.error Err.boundsError) := by
  refine ⟨⟨?_, ?_⟩, ?_, ?_, ?_, ?_, ?_⟩
  · intro h
    simp only [CheckedIterator.offset] at h
    split_ifs at h with h1 h2 h3
    exact ⟨h3.1, h3.2, not_lt.mp h1, not_lt.mp h2⟩
  · intro hP
    simp only [CheckedIterator.offset]
    split_ifs with h1 h2 h3
    · exact absurd hP.2.2.1 (not_le.mpr h1)
    · exact absurd hP.2.2.2 (not_le.mpr h2)
    · rfl
    · exact absurd ⟨hP.1, hP.2.1⟩ h3
  · intro hnP
    simp only [CheckedIterator.offset]
    split_ifs with h1 h2 h3
    · rfl
    · rfl
    · exact absurd ⟨h3.1, h3.2, not_lt.mp h1, not_lt.mp h2⟩ hnP
    · rfl
  · intro h
    simp [CheckedIterator.inc, h]
  · intro h
    simp [CheckedIterator.inc, h]
  · intro h
    simp [CheckedIterator.dec, h]
  · intro h
    simp [CheckedIterator.dec, h]

/-- Witness for C2 at concrete inputs: offsetting the start iterator over
a five-element range by 2 succeeds, incrementing the end iterator fails
with BoundsError, and decrementing the start iterator fails with
BoundsError. -/
theorem checkedIterator_bounds_witness :
    (CheckedIterator.mk 100 0 5).offset 2 = Except.ok (CheckedIterator.mk 100 2 5) ∧
    (CheckedIterator.mk 100 5 5).inc = Except.error Err.boundsError ∧
    (CheckedIterator.mk 100 0 5).dec = Except.error Err.boundsError := by
  refine ⟨?_, ?_, ?_⟩
  · have h := (checkedIterator_bounds (CheckedIterator.mk 100 0 5) 2).1.mpr (by decide)
    simpa using h
  · exact (checkedIterator_bounds (CheckedIterator.mk 100 5 5) 2).2.2.2.1 (by decide)
  · exact (checkedIterator_bounds (CheckedIterator.mk 100 0 5) 2).2.2.2.2.2 (by decide)

/-- Helper: sliceEqBy agrees with the element-wise Forall₂ relation. -/
theorem sliceEqBy_iff_forall₂ (beq : α → α → Bool) :
    ∀ xs ys : List α,
      sliceEqBy beq xs ys = true ↔ List.Forall₂ (fun a b => beq a b = true) xs ys
  | [], [] => by simp [sliceEqBy]
  | [], _ :: _ => by simp [sliceEqBy]
  | _ :: _, [] => by simp [sliceEqBy]
  | x :: xs, y :: ys => by
    simp [sliceEqBy, sliceEqBy_iff_forall₂ beq xs ys, List.forall₂_cons]

/-- Helper: a view is lexicographically less than any view extending it by
at least one element, when the compared elements are pairwise equal. -/
theorem sliceCompareBy_extends_lt (cmp : α → α → Option Ordering)
    {xs xs' : List α} (h : List.Forall₂ (fun a b => cmp a b = some Ordering.eq) xs xs')
    (ys : List α) (hys : ys ≠ []) :
    sliceCompareBy cmp xs (xs' ++ ys) = some Ordering.lt := by
  induction h with
  | nil =>
    cases ys with
    | nil => exact absurd rfl hys
    | cons y ys => simp [sliceCompareBy]
  | cons hab _ ih => simpa [sliceCompareBy, hab] using ih

/-- Helper: mirror image of sliceCompareBy_extends_lt. -/
theorem sliceCompareBy_extends_gt (cmp : α → α → Option Ordering)
    {xs xs' : List α} (h : List.Forall₂ (fun a b => cmp a b = some Ordering.eq) xs xs')
    (ys : List α) (hys : ys ≠ []) :
    sliceCompareBy cmp (xs ++ ys) xs' = some Ordering.gt := by
  induction h with
  | nil =>
    cases ys with
    | nil => exact absurd rfl hys
    | cons y ys => simp [sliceCompareBy]
  | cons hab _ ih => simpa [sliceCompareBy, hab] using ih

/-- Claim C3: for an array-pointer slice view v with n elements, indexing
with 0 ≤ i < n yields the address of the i-th element (base + i); v[n]
and v[-1] raise BoundsError; and the checked get v.at(n) raises the
distinct OutOfRange error for the same out-of-bounds condition. -/
theorem slice_subscript_at (v : Slice) (i : Int) :
    (0 ≤ i → i < (v.count : Int) → v.subscript i = Except.ok (v.base + i.toNat)) ∧
    v.subscript (v.count : Int) = Except.error Err.boundsError ∧
    v.subscript (-1) = Except.error Err.boundsError ∧
    v.at_ v.count = Except.error Err.outOfRange := by
  refine ⟨fun h1 h2 => ?_, ?_, ?_, ?_⟩
  · simp [Slice.subscript, h1, h2]
  · simp [Slice.subscript]
  · simp [Slice.subscript]
  · simp [Slice.at_]

/-- Witness for C3 on a five-element view based at address 100: index 3
resolves to address 103, index 5 and index -1 raise BoundsError, and
at(5) raises OutOfRange. -/
theorem slice_subscript_at_witness :
    (Slice.mk 100 5).subscript 3 = Except.ok 103 ∧
    (Slice.mk 100 5).subscript 5 = Except.error Err.boundsError ∧
    (Slice.mk 100 5).subscript (-1) = Except.error Err.boundsError ∧
    (Slice.mk 100 5).at_ 5 = Except.error Err.outOfRange := by
  have h := slice_subscript_at (Slice.mk 100 5) 3
  refine ⟨by simpa using h.1 (by decide) (by decide), by simpa using h.2.1,
    h.2.2.1, h.2.2.2⟩

/-- Claim C6: two slice views are equal iff they have the same element
count and all corresponding elements compare equal (unequal counts are
unequal regardless of content); ordering is lexicographic by element and
then by length — when all compared elements are equal the shorter view is
less (and the longer greater) — and an element comparison with only a
partial order (modelled by an Option.none result, as for floats with NaN)
propagates the unordered result instead of collapsing to a total order. -/
theorem slice_eq_and_order (beq : α → α → Bool) (cmp : α → α → Option Ordering) :
    (∀ xs ys : List α, sliceEqBy beq xs ys = true ↔
      (xs.length = ys.length ∧ ∀ (i : Nat) (h1 : i < xs.length) (h2 : i < ys.length),
        beq (xs.get ⟨i, h1⟩) (ys.get ⟨i, h2⟩) = true)) ∧
    (∀ xs ys : List α, xs.length ≠ ys.length → sliceEqBy beq xs ys = false) ∧
    (∀ xs xs' ys : List α,
      List.Forall₂ (fun a b => cmp a b = some Ordering.eq) xs xs' → ys ≠ [] →
        sliceCompareBy cmp xs (xs' ++ ys) = some Ordering.lt ∧
        sliceCompareBy cmp (xs ++ ys) xs' = some Ordering.gt) ∧
    (∀ (x y : α) (xs ys : List α), cmp x y = some Ordering.eq →
      sliceCompareBy cmp (x :: xs) (y :: ys) = sliceCompareBy cmp xs ys) ∧
    (∀ (x y : α) (xs ys : List α), cmp x y = none →
      sliceCompareBy cmp (x :: xs) (y :: ys) = none) := by
  refine ⟨?_, ?_, ?_, ?_, ?_⟩
  · intro xs ys
    rw [sliceEqBy_iff_forall₂, List.forall₂_iff_get]
  · intro xs ys hlen
    cases hv : sliceEqBy beq xs ys with
    | false => rfl
    | true =>
      exact absurd ((sliceEqBy_iff_forall₂ beq xs ys).mp hv).length_eq hlen
  · intro xs xs' ys h hys
    exact ⟨sliceCompareBy_extends_lt cmp h ys hys, sliceCompareBy_extends_gt cmp h ys hys⟩
  · intro x y xs ys hxy
    simp [sliceCompareBy, hxy]
  · intro x y xs ys hxy
    simp [sliceCompareBy, hxy]

/-- Witness for C6 over concrete integer slices: [1,2,3,4,5] equals
itself, differs from [1,2,3,4], the shorter compares less and the longer
greater, and a comparison whose middle elements are unordered (a NaN
model) yields the unordered result. -/
theorem slice_eq_and_order_witness :
    sliceEqBy (fun a b : Int => a == b) [1, 2, 3, 4, 5] [1, 2, 3, 4, 5] = true ∧
    sliceEqBy (fun a b : Int => a == b) [1, 2, 3, 4] [1, 2, 3, 4, 5] = false ∧
    sliceCompareBy (fun a b : Int => some (compare a b)) [1, 2, 3, 4] [1, 2, 3, 4, 5]
      = some Ordering.lt ∧
    sliceCompareBy (fun a b : Int => some (compare a b)) [1, 2, 3, 4, 5] [1, 2, 3, 4]
      = some Ordering.gt ∧
    sliceCompareBy (fun a b : Int => if a == 0 || b == 0 then none else some (compare a b))
      [1, 0, 3] [1, 0, 3] = none := by
  have h := slice_eq_and_order (fun a b : Int => a == b) (fun a b : Int => some (compare a b))
  have hu := slice_eq_and_order (fun a b : Int => a == b)
    (fun a b : Int => if a == 0 || b == 0 then none else some (compare a b))
  have hf : List.Forall₂
      (fun a b : Int => (fun a b : Int => some (compare a b)) a b = some Ordering.eq)
      [1, 2, 3, 4] [1, 2, 3, 4] := by
    refine List.Forall₂.cons (by decide) ?_
    refine List.Forall₂.cons (by decide) ?_
    refine List.Forall₂.cons (by decide) ?_
    exact List.Forall₂.cons (by decide) List.Forall₂.nil
  have h3 := h.2.2.1 [1, 2, 3, 4] [1, 2, 3, 4] [5] hf (by decide)
  refine ⟨?_, h.2.1 [1, 2, 3, 4] [1, 2, 3, 4, 5] (by decide), by simpa using h3.1,
    by simpa using h3.2, ?_⟩
  · exact (h.1 [1, 2, 3, 4, 5] [1, 2, 3, 4, 5]).mpr ⟨rfl, by decide⟩
  · have step := hu.2.2.2.1 1 1 [0, 3] [0, 3] (by decide)
    have stop := hu.2.2.2.2 0 0 [3] [3] (by decide)
    exact step.trans stop

/-- Claim C10: recovery from a type-erased pointer to the const-qualified
version of the original concrete type succeeds (the const-stripped
type-identity tags agree, so no TypeMismatch is raised) and preserves the
address; the compile-time conversion graph permits adding const during
recovery (mutable-erased to const-concrete) but provides no conversion
from a const-erased pointer to a non-const concrete pointer type. -/
theorem recover_const_qualified (p : Pointer) (t : Nat) :
    recover (erase t false p) t = Except.ok p ∧
    constConvertible false true = true ∧
    constConvertible true false = false := by
  refine ⟨?_, rfl, rfl⟩
  simp [recover, erase]

/-- Counterexample to claim C4 as stated: the claim asserts that two
pointers of the same pointer type, including array pointers, compare
equal if and only if their addresses are equal.  The conformance test
(src/test/pointer.test.cpp lines 1120-1122) requires an array pointer
over the first three elements of an array to be unequal to the pointer
over all five elements, although both share the same base address. -/
theorem arrayPointer_equal_addr_counterexample :
    (ArrayPointer.mk 1000 5).addr = (ArrayPointer.mk 1000 3).addr ∧
    ArrayPointer.equal (ArrayPointer.mk 1000 5) (ArrayPointer.mk 1000 3) = false := by
  decide

/-- Claim C4 (amended): object pointers and type-erased pointers compare
equal iff their addresses are equal (for erased pointers address alone,
ignoring the type tags), and their ordering is a strict total order by
address; array pointers compare equal iff both the base address and the
element count are equal, and their ordering is a strict total order by
address and then count.  All comparisons depend only on the pointer data,
never on the pointed-to values. -/
theorem pointer_comparison_amended :
    (∀ p q : Pointer, Pointer.equal p q = true ↔ p.addr = q.addr) ∧
    (∀ e f : ErasedPointer, ErasedPointer.equal e f = true ↔ e.addr = f.addr) ∧
    (∀ p q : ArrayPointer,
      ArrayPointer.equal p q = true ↔ (p.addr = q.addr ∧ p.count = q.count)) ∧
    (∀ p : Pointer, Pointer.lt p p = false) ∧
    (∀ p q r : Pointer,
      Pointer.lt p q = true → Pointer.lt q r = true → Pointer.lt p r = true) ∧
    (∀ p q : Pointer,
      Pointer.lt p q = true ∨ Pointer.equal p q = true ∨ Pointer.lt q p = true) ∧
    (∀ e : ErasedPointer, ErasedPointer.lt e e = false) ∧
    (∀ e f g : ErasedPointer,
      ErasedPointer.lt e f = true → ErasedPointer.lt f g = true →
        ErasedPointer.lt e g = true) ∧
    (∀ e f : ErasedPointer,
      ErasedPointer.lt e f = true ∨ ErasedPointer.equal e f = true ∨
        ErasedPointer.lt f e = true) ∧
    (∀ p : ArrayPointer, ArrayPointer.lt p p = false) ∧
    (∀ p q r : ArrayPointer,
      ArrayPointer.lt p q = true → ArrayPointer.lt q r = true →
        ArrayPointer.lt p r = true) ∧
    (∀ p q : ArrayPointer,
      ArrayPointer.lt p q = true ∨ ArrayPointer.equal p q = true ∨
        ArrayPointer.lt q p = true) := by
  refine ⟨?_, ?_, ?_, ?_, ?_, ?_, ?_, ?_, ?_, ?_, ?_, ?_⟩
  · intro p q; simp [Pointer.equal]
  · intro e f; simp [ErasedPointer.equal]
  · intro p q; simp [ArrayPointer.equal]
  · intro p; simp [Pointer.lt]
  · intro p q r h1 h2
    simp only [Pointer.lt, decide_eq_true_eq] at h1 h2 ⊢
    omega
  · intro p q
    simp only [Pointer.lt, Pointer.equal, decide_eq_true_eq, beq_iff_eq]
    omega
  · intro e; simp [ErasedPointer.lt]
  · intro e f g h1 h2
    simp only [ErasedPointer.lt, decide_eq_true_eq] at h1 h2 ⊢
    omega
  · intro e f
    simp only [ErasedPointer.lt, ErasedPointer.equal, decide_eq_true_eq, beq_iff_eq]
    omega
  · intro p; simp [ArrayPointer.lt]
  · intro p q r h1 h2
    simp only [ArrayPointer.lt, decide_eq_true_eq] at h1 h2 ⊢
    omega
  · intro p q
    simp only [ArrayPointer.lt, ArrayPointer.equal, decide_eq_true_eq, beq_iff_eq,
      Bool.and_eq_true]
    omega

/-- Witness for the amended C4 at concrete inputs, exercising the
transitivity components for all three pointer kinds. -/
theorem pointer_comparison_amended_witness :
    Pointer.lt (Pointer.mk 1) (Pointer.mk 3) = true ∧
    ErasedPointer.lt (ErasedPointer.mk 1 0 false) (ErasedPointer.mk 3 0 false) = true ∧
    ArrayPointer.lt (ArrayPointer.mk 1 5) (ArrayPointer.mk 2 0) = true := by
  obtain ⟨h1, h2, h3, h4, h5, h6, h7, h8, h9, h10, h11, h12⟩ := pointer_comparison_amended
  exact ⟨h5 (Pointer.mk 1) (Pointer.mk 2) (Pointer.mk 3) (by decide) (by decide),
    h8 (ErasedPointer.mk 1 0 false) (ErasedPointer.mk 2 0 false)
      (ErasedPointer.mk 3 0 false) (by decide) (by decide),
    h11 (ArrayPointer.mk 1 5) (ArrayPointer.mk 1 7) (ArrayPointer.mk 2 0)
      (by decide) (by decide)⟩

/-- Claim C7: the Nullable wrapper default-constructs to the absent
state; dereferencing an absent wrapper raises BadAccess; in the
at-most-one-element iteration variant an absent wrapper yields zero
elements; and after assignment from a valid pointer has_value() is true
and dereference returns the referenced value. -/
theorem nullable_pointer_spec :
    NullablePointer.default.hasValue = false ∧
    (∀ o : NullablePointer, o.hasValue = false → o.value = Except.error Err.badAccess) ∧
    (∀ o : NullablePointer, o.hasValue = false → o.toList = []) ∧
    (∀ (o : NullablePointer) (p : Pointer), p.addr ≠ 0 →
      (o.assign p).hasValue = true ∧ (o.assign p).value = Except.ok p ∧
        ∀ mem : Nat → Int,
          ((o.assign p).value).map (Pointer.deref mem) = Except.ok (mem p.addr)) := by
  refine ⟨rfl, ?_, ?_, ?_⟩
  · intro o h
    simp only [NullablePointer.hasValue, bne_eq_false_iff_eq] at h
    simp [NullablePointer.value, h]
  · intro o h
    simp only [NullablePointer.hasValue, bne_eq_false_iff_eq] at h
    simp [NullablePointer.toList, h]
  · intro o p hp
    refine ⟨?_, ?_, ?_⟩
    · simp [NullablePointer.assign, NullablePointer.hasValue, hp]
    · simp [NullablePointer.assign, NullablePointer.value, hp]
    · intro mem
      simp [NullablePointer.assign, NullablePointer.value, hp, Except.map, Pointer.deref]

/-- Witness for C7: the default wrapper is absent and raises BadAccess,
and after assigning the pointer at address 42 the wrapper is engaged and
dereferences to it. -/
theorem nullable_pointer_spec_witness :
    NullablePointer.default.value = Except.error Err.badAccess ∧
    NullablePointer.default.toList = [] ∧
    (NullablePointer.default.assign (Pointer.mk 42)).hasValue = true ∧
    (NullablePointer.default.assign (Pointer.mk 42)).value = Except.ok (Pointer.mk 42) := by
  have h := nullable_pointer_spec
  have h4 := h.2.2.2 NullablePointer.default (Pointer.mk 42) (by decide)
  exact ⟨h.2.1 NullablePointer.default (by decide),
    h.2.2.1 NullablePointer.default (by decide), h4.1, h4.2.1⟩

/-- Claim C8: the standard hash of an object pointer equals the standard
hash of its underlying raw address; the array-pointer hash also
incorporates the element count, so two array pointers with the same base
address but different lengths hash to different values. -/
theorem hash_spec :
    (∀ p : Pointer, p.hashVal = stdHashAddr p.addr) ∧
    (∀ p q : ArrayPointer, p.addr = q.addr → p.count ≠ q.count →
      p.hashVal ≠ q.hashVal) := by
  refine ⟨fun p => rfl, ?_⟩
  intro p q _ hc h
  rw [ArrayPointer.hashVal, ArrayPointer.hashVal] at h
  exact hc (Nat.pair_eq_pair.mp h).2

/-- Witness for C8: array pointers at base 100 with counts 5 and 3 hash
differently, and the object pointer at address 42 hashes to the hash of
address 42. -/
theorem hash_spec_witness :
    (ArrayPointer.mk 100 5).hashVal ≠ (ArrayPointer.mk 100 3).hashVal ∧
    (Pointer.mk 42).hashVal = stdHashAddr 42 :=
  ⟨hash_spec.2 (ArrayPointer.mk 100 5) (ArrayPointer.mk 100 3) rfl (by decide),
    hash_spec.1 (Pointer.mk 42)⟩

/-- Claim C9: the Nullable wrapper around the pointer type occupies
exactly the pointer's own representation: every valid wrapper state maps
into the same single machine word a pointer occupies, the mapping is
injective (so no separate discriminant is needed), the absent state uses
the pointer's reserved null bit-pattern 0, a present pointer uses its own
address word, and every word value is the representation of some wrapper
state — the wrapper's state space is exactly the pointer word. -/
theorem nullable_size_elision :
    (∀ p : Pointer, pointerValid p → p.addr < word64 ∧ p.addr ≠ 0) ∧
    (∀ o : Option Pointer, nullableValid o → nullableRepr o < word64) ∧
    (∀ o o' : Option Pointer, nullableValid o → nullableValid o' →
      nullableRepr o = nullableRepr o' → o = o') ∧
    nullableRepr none = 0 ∧
    (∀ p : Pointer, nullableRepr (some p) = p.addr) ∧
    (∀ a : Nat, a < word64 → ∃ o : Option Pointer, nullableValid o ∧ nullableRepr o = a) := by
  refine ⟨fun p hp => ⟨hp.2, hp.1⟩, ?_, ?_, rfl, fun p => rfl, ?_⟩
  · intro o ho
    cases o with
    | none => norm_num [nullableRepr, word64]
    | some p => exact ho.2
  · intro o o' ho ho' h
    cases o with
    | none =>
      cases o' with
      | none => rfl
      | some q => exact absurd h.symm ho'.1
    | some p =>
      cases o' with
      | none => exact absurd h ho.1
      | some q =>
        cases p with
        | mk a =>
          cases q with
          | mk b => simp only [nullableRepr] at h; rw [h]
  · intro a ha
    by_cases h : a = 0
    · exact ⟨none, trivial, h ▸ rfl⟩
    · exact ⟨some (Pointer.mk a), ⟨h, ha⟩, rfl⟩

/-- Witness for C9: the wrapper holding the pointer at address 42 is
represented within the pointer word, and the word value 42 is the
representation of some valid wrapper state. -/
theorem nullable_size_elision_witness :
    nullableRepr (some (Pointer.mk 42)) < word64 ∧
    (∃ o : Option Pointer, nullableValid o ∧ nullableRepr o = 42) := by
  have h := nullable_size_elision
  exact ⟨h.2.1 (some (Pointer.mk 42)) (by decide), h.2.2.2.2.2 42 (by decide)⟩

end Tcb
